import Mathlib

/-!
Verification of `firedrake/bcs.py` (strong/Dirichlet and equation-type
boundary conditions).  The Python classes are shallowly embedded:

* finite-element spaces become the inductive `FSpace` (element family,
  topological mesh dimension, extrudedness, optional `index`/`component`,
  optional `parent` link);
* `BCBase.__init__` becomes `BCBase_init`, an `Except`-valued function (a
  Python exception becomes `.error`);
* `DirichletBC`'s mutable value bookkeeping (`_original_val`,
  `_function_arg`, `_original_arg`, `_expression_state`,
  `_currently_zeroed`) becomes the state record `DBC` together with
  explicit state-passing versions of the `function_arg` property getter
  and setter, `homogenize`, `restore` and `set_value`.  A
  pointwise-evaluable `Expression` with internal mutable state is
  modelled by `GValue.expr eval`: `eval s` is the field the expression
  interpolates to when its internal state counter reads `s`; the counter
  itself lives outside the object, so operations that read it take it as
  an extra argument;
* fields (`Function` objects) with `sub`-indexed aliased views become the
  rose tree `FFunction`; in-place `assign` over a node subset through a chain
  of `sub` views becomes the functional update `DirichletBC.apply`;
* UFL forms are modelled syntactically by `UForm` (argument counts are
  what the code inspects; `ufl_expr.action`, `ufl_expr.derivative` and
  form subtraction are uninterpreted constructors).
-/

/-- Finite element families distinguished by `bcs.py` (the three families
on the exclusion list, Hermite, and a generic supported family standing
for everything else). -/
inductive ElemFamily where
  | Argyris
  | Morley
  | Bell
  | Hermite
  | Lagrange
deriving DecidableEq, Repr

/-- The element families rejected outright by `BCBase.__init__`
(`isinstance(V.finat_element, (finat.Argyris, finat.Morley, finat.Bell))`). -/
def excludedElements : List ElemFamily :=
  [ElemFamily.Argyris, ElemFamily.Morley, ElemFamily.Bell]

/-- A function space: element family, topological mesh dimension,
extrudedness, the optional `index` (sub-index of a mixed space) and
`component` (vector component), and the optional `parent` space. -/
inductive FSpace where
  | mk (elem : ElemFamily) (tdim : Nat) (extruded : Bool)
       (index : Option Nat) (component : Option Nat) (parent : Option FSpace)

def FSpace.elem : FSpace → ElemFamily
  | .mk e _ _ _ _ _ => e

def FSpace.tdim : FSpace → Nat
  | .mk _ d _ _ _ _ => d

def FSpace.extruded : FSpace → Bool
  | .mk _ _ x _ _ _ => x

def FSpace.index : FSpace → Option Nat
  | .mk _ _ _ i _ _ => i

def FSpace.component : FSpace → Option Nat
  | .mk _ _ _ _ c _ => c

def FSpace.parent : FSpace → Option FSpace
  | .mk _ _ _ _ _ p => p

/-- The `while True` loop of `BCBase.__init__`: walk `parent` links from
`V` to the root, at each level appending `index` (if present) then
`component` (if present) to the running `indices` list. -/
def collectIndices : FSpace → List Nat
  | .mk _ _ _ idx comp parent =>
    (match idx with | some i => [i] | none => [])
      ++ (match comp with | some c => [c] | none => [])
      ++ (match parent with | some p => collectIndices p | none => [])

/-- `self._indices`: the collected indices, reversed (root-most first). -/
def indicesOf (V : FSpace) : List Nat := (collectIndices V).reverse

/-- The "zany element" test opening `BCBase.__init__`: the element is
Argyris, Morley or Bell, or it is Hermite on a mesh of topological
dimension greater than 1. -/
def isZanyElement (elem : ElemFamily) (tdim : Nat) : Bool :=
  decide (elem ∈ excludedElements) || (decide (elem = ElemFamily.Hermite) && decide (tdim > 1))

/-- The state a successfully constructed `BCBase` carries (the fields of
the Python object that the claims mention). -/
structure BCBaseState where
  function_space : FSpace
  sub_domain : Nat
  method : String
  indices : List Nat

/-- Total constructor for the success case of `BCBase.__init__`. -/
def mkBCBase (V : FSpace) (sub_domain : Nat) (method : String) : BCBaseState :=
  { function_space := V, sub_domain := sub_domain, method := method, indices := indicesOf V }

/-- Shallow embedding of `BCBase.__init__`.  Checks run in source order:
zany-element rejection first, then the `method` string check, then the
extruded/component check; only then is the index path collected.  Note
that boundary nodes are never consulted here (the `nodes` property is a
separate, lazily evaluated attribute). -/
def BCBase_init (V : FSpace) (sub_domain : Nat) (method : String) : Except String BCBaseState :=
  if isZanyElement V.elem V.tdim then
    .error "NotImplementedError: Strong BCs not implemented for element"
  else if ¬ (method = "topological" ∨ method = "geometric") then
    .error "ValueError: Unknown boundary condition method"
  else if V.extruded ∧ V.component.isSome then
    .error "NotImplementedError: Indexed VFS bcs not implemented on extruded meshes"
  else
    .ok (mkBCBase V sub_domain method)

/-- Python's `l[::2]` on a list: every second entry, starting from the
first. -/
def everySecond : List α → List α
  | [] => []
  | [a] => [a]
  | a :: _ :: rest => a :: everySecond rest

/-- Shallow embedding of the `BCBase.nodes` property: take the boundary
nodes reported by the function space, and if the element is Hermite on a
1-dimensional mesh keep only every second one. -/
def nodesOf (elem : ElemFamily) (tdim : Nat) (boundary_nodes : List Nat) : List Nat :=
  if elem = ElemFamily.Hermite ∧ tdim = 1 then everySecond boundary_nodes
  else boundary_nodes

/-- A boundary value as supplied to `DirichletBC`.  `const v` stands for
anything that resolves once and for all to the field `v` (a `Function`
on the space, a bare constant, a UFL constant).  `expr eval` stands for
a mutable `Expression`: `eval s` is the field obtained by interpolating
the expression while its internal `_state` counter reads `s`.  `F` is
the type of resolved fields. -/
inductive GValue (F : Type) where
  | const (v : F)
  | expr (eval : Nat → F)

/-- The value-tracking fields of a `DirichletBC` object:
`_original_val`, `_expression_state`, `_function_arg` (the resolved
value), `_original_arg` (the restore point) and `_currently_zeroed`. -/
structure DBC (F : Type) where
  original_val : GValue F
  expression_state : Nat
  function_arg : F
  original_arg : F
  currently_zeroed : Bool

namespace DirichletBC

variable {F : Type}

/-- The `function_arg` property setter.  `gstate` is the value of
`g._state` at call time (meaningful only when `g` is an expression, in
which case the setter records it in `_expression_state` and interpolates
the expression onto the space).  In every case `_function_arg` is
overwritten and `_currently_zeroed` reset to false. -/
def function_arg_set (s : DBC F) (g : GValue F) (gstate : Nat) : DBC F :=
  match g with
  | .const v => { s with function_arg := v, currently_zeroed := false }
  | .expr eval =>
    { s with expression_state := gstate, function_arg := eval gstate,
             currently_zeroed := false }

/-- The `function_arg` property getter.  `curState` is the value of
`self._original_val._state` at call time.  When the original value is an
expression whose state has advanced since the last resolution and the BC
is not currently zeroed, the getter re-runs the setter on the original
value and then overwrites `_original_arg` with the freshly resolved
field (the inner `self.function_arg` read hits the just-synchronised
state, so it returns `_function_arg` unchanged).  Returns the value read
together with the (possibly mutated) object state. -/
def function_arg_get (s : DBC F) (curState : Nat) : F × DBC F :=
  match s.original_val with
  | .expr eval =>
    if s.currently_zeroed = false ∧ curState ≠ s.expression_state then
      let s1 := function_arg_set s (.expr eval) curState
      let s2 := { s1 with original_arg := s1.function_arg }
      (s2.function_arg, s2)
    else
      (s.function_arg, s)
  | .const _ => (s.function_arg, s)

/-- Shallow embedding of `DirichletBC.__init__`'s value bookkeeping
(lines after the `super().__init__` call): store `_original_val`, run
the `function_arg` setter on `g`, snapshot `_original_arg` through the
getter, and clear `_currently_zeroed`.  `gstate` is `g._state` at
construction time.  The pre-assignment field values are dummies; every
field is written before it can be read. -/
def init [Zero F] (g : GValue F) (gstate : Nat) : DBC F :=
  let s0 : DBC F :=
    { original_val := g, expression_state := 0, function_arg := 0,
      original_arg := 0, currently_zeroed := true }
  let s1 := function_arg_set s0 g gstate
  let p := function_arg_get s1 gstate
  let s2 := { p.2 with original_arg := p.1 }
  { s2 with currently_zeroed := false }

/-- Embedding of `DirichletBC.homogenize`: assign the constant `0`
through the `function_arg` setter, then set `_currently_zeroed`. -/
def homogenize [Zero F] (s : DBC F) : DBC F :=
  let s1 := function_arg_set s (.const 0) 0
  { s1 with currently_zeroed := true }

/-- Embedding of `DirichletBC.restore`: write `_original_arg` straight
into `_function_arg` (bypassing the setter) and clear
`_currently_zeroed`. -/
def restore (s : DBC F) : DBC F :=
  { s with function_arg := s.original_arg, currently_zeroed := false }

/-- Embedding of `DirichletBC.set_value`, preserving the source's
statement order: first the `function_arg` setter runs on `val`
(`vstate` is `val._state`), then `self._original_arg = self.function_arg`
reads the getter while `_original_val` still holds the OLD value
(`oldState` is the old value's `_state` at that moment), and only then
is `_original_val` replaced by `val`. -/
def set_value (s : DBC F) (v : GValue F) (vstate : Nat) (oldState : Nat) : DBC F :=
  let s1 := function_arg_set s v vstate
  let p := function_arg_get s1 oldState
  let s2 := { p.2 with original_arg := p.1 }
  { s2 with original_val := v }

/-- States of the value bookkeeping reachable through the public
`DirichletBC` interface: construction, `homogenize`, `restore`,
`set_value`, and reads of the `function_arg` property (which may mutate
the object).  The `Nat` arguments range over all possible external
expression-state counters. -/
inductive Reachable [Zero F] : DBC F → Prop where
  | init (g : GValue F) (gstate : Nat) : Reachable (init g gstate)
  | homogenize {s : DBC F} : Reachable s → Reachable (homogenize s)
  | restore {s : DBC F} : Reachable s → Reachable (restore s)
  | set_value {s : DBC F} (v : GValue F) (vstate oldState : Nat) :
      Reachable s → Reachable (set_value s v vstate oldState)
  | get {s : DBC F} (curState : Nat) :
      Reachable s → Reachable (function_arg_get s curState).2

end DirichletBC

/-- A `Function` (field) seen through its `sub`-view structure: a leaf
is a flat array of nodal values (indexed by node number), a node is a
mixed/vector function whose `sub(i)` views are its children.  Values are
integers (the claims only need a commutative ring with subtraction). -/
inductive FFunction where
  | leaf (data : Nat → Int)
  | node (children : List FFunction)

/-- Read the nodal data reached by applying the `sub`-indexing chain `p`
to a field; `none` when the field's structure does not match the path
(the Python code raises in that situation). -/
def getPath : List Nat → FFunction → Option (Nat → Int)
  | [], .leaf d => some d
  | [], .node _ => none
  | _ :: _, .leaf _ => none
  | i :: p, .node cs =>
    match cs[i]? with
    | some c => getPath p c
    | none => none

/-- Functional rendering of an in-place write through a chain of `sub`
views: replace the nodal data reached by `p` with `f`, leaving every
other part of the tree untouched.  `none` when the structure does not
match the path. -/
def setPath : List Nat → (Nat → Int) → FFunction → Option FFunction
  | [], f, .leaf _ => some (.leaf f)
  | [], _, .node _ => none
  | _ :: _, _, .leaf _ => none
  | i :: p, f, .node cs =>
    match cs[i]? with
    | some c => (setPath p f c).map (fun c2 => .node (cs.set i c2))
    | none => none

/-- Shallow embedding of the field branch of `DirichletBC.apply`.
`indices` is the BC's `_indices` chain, `g` the nodal data of the BC's
resolved value (`self.function_arg`), `node_set` the node subset the BC
constrains.  Following the source: `r` (and `u`, when supplied) is
`sub`-indexed along `indices`; then `r.assign(u - g, subset=node_set)`
or `r.assign(g, subset=node_set)` overwrites exactly the `node_set`
entries of the addressed leaf.  The function-space compatibility checks
of the source correspond to the path lookups succeeding. -/
def DirichletBC.apply (indices : List Nat) (g : Nat → Int) (node_set : List Nat)
    (r : FFunction) (u : Option FFunction) : Option FFunction :=
  match u with
  | none =>
    match getPath indices r with
    | some rd => setPath indices (fun i => if i ∈ node_set then g i else rd i) r
    | none => none
  | some uf =>
    match getPath indices r, getPath indices uf with
    | some rd, some ud =>
      setPath indices (fun i => if i ∈ node_set then ud i - g i else rd i) r
    | _, _ => none

/-- Full `DirichletBC` object state: the base-class fields plus the
value bookkeeping. -/
structure DirichletBCState (F : Type) where
  base : BCBaseState
  val : DBC F

/-- Shallow embedding of `DirichletBC.__init__`.  Note that the base
class is invoked with the hard-coded string `"topological"`: the
caller's `method` argument is discarded (source:
`super().__init__(V, sub_domain, method="topological")`), so it is
never validated and never stored. -/
def DirichletBC_full_init (F : Type) [Zero F] (V : FSpace) (g : GValue F) (gstate : Nat)
    (sub_domain : Nat) (method : String) : Except String (DirichletBCState F) :=
  match BCBase_init V sub_domain "topological" with
  | .error e => .error e
  | .ok b => .ok { base := b, val := DirichletBC.init g gstate }

/-- The construction-time checks of `BCBase.__init__` with the
`"topological"` method, as a predicate on the space alone; every space
on which a BC object exists satisfies it. -/
def SpaceOK (V : FSpace) : Prop :=
  isZanyElement V.elem V.tdim = false ∧ ¬ (V.extruded ∧ V.component.isSome)

instance (V : FSpace) : Decidable (SpaceOK V) := by
  unfold SpaceOK; infer_instance

/-- Symbolic UFL forms and Slate tensors, as far as `EquationBC`
inspects them: a plain `ufl.Form` carrying its free-argument count, a
Slate tensor likewise, and the (uninterpreted) outcomes of
`ufl_expr.action`, `ufl_expr.derivative` and form subtraction. -/
inductive UForm where
  | base (nargs : Nat) (id : Nat)
  | tensor (nargs : Nat) (id : Nat)
  | action (J : UForm) (u : Nat)
  | derivative (f : UForm) (u : Nat)
  | sub (a b : UForm)
deriving DecidableEq, Repr

/-- The count `len(form.arguments())`: `action` consumes one free
argument, `derivative` introduces one, subtraction takes the union
(here: the max) of the operands' argument sets. -/
def UForm.numArguments : UForm → Nat
  | .base n _ => n
  | .tensor n _ => n
  | .action J _ => J.numArguments - 1
  | .derivative f _ => f.numArguments + 1
  | .sub a b => max a.numArguments b.numArguments

/-- Whether the object is an instance of `ufl.Form` (Slate tensors are
not; results of the form algebra are). -/
def UForm.isForm : UForm → Bool
  | .tensor _ _ => false
  | _ => true

/-- One side of the equation handed to `EquationBC`: the literal
integer `0`, or a form/tensor. -/
inductive EqSide where
  | intZero
  | expr (f : UForm)
deriving DecidableEq

/-- The test `isinstance(side, ufl.Form)`. -/
def EqSide.isUflForm : EqSide → Bool
  | .intZero => false
  | .expr f => f.isForm

/-- The fields of a constructed `EquationBC`: base fields, the unknown
`u`, the `Jp_eq_J` flag, the residual `F`, Jacobian `J`, preconditioner
`Jp`, linearity flag and the nested-BC list (`None` at construction;
an external assembler may attach a list later). -/
structure EquationBCState where
  base : BCBaseState
  u : Nat
  Jp_eq_J : Bool
  F : UForm
  J : UForm
  Jp : UForm
  is_linear : Bool
  bcs : Option (List Nat)

/-- The linear branch of `EquationBC.__init__` (both sides are
`ufl.Form`s): `J := lhs`, `Jp := Jp or J`, and since a `Form` is never
the literal integer `0` (the `eq.rhs is 0` identity test is dead code in
this branch) the residual is `action(J, u) - rhs` after checking the rhs
has exactly one free argument. -/
def EquationBC_linear (bse : BCBaseState) (jpEqJ : Bool) (lhs rhs : EqSide) (u : Nat)
    (Jp : Option UForm) : Except String EquationBCState :=
  match lhs, rhs with
  | .expr L, .expr R =>
    if R.numArguments ≠ 1 then
      .error "ValueError: Provided BC RHS is not a linear form"
    else
      .ok { base := bse, u := u, Jp_eq_J := jpEqJ, F := .sub (.action L u) R,
            J := L, Jp := Jp.getD L, is_linear := true, bcs := none }
  | _, _ => .error "unreachable: the linear branch requires two Forms"

/-- The nonlinear branch of `EquationBC.__init__`: the rhs must equal
the integer `0`; the lhs must be a form/tensor with exactly one free
argument and becomes the residual `F`; an explicitly supplied Jacobian
or preconditioner must have exactly two free arguments; `J` defaults to
`derivative(F, u)` and `Jp` defaults to `J`. -/
def EquationBC_nonlinear (bse : BCBaseState) (jpEqJ : Bool) (lhs rhs : EqSide) (u : Nat)
    (J Jp : Option UForm) : Except String EquationBCState :=
  if rhs ≠ EqSide.intZero then
    .error "TypeError: RHS of a nonlinear form equation has to be 0"
  else
    match lhs with
    | .intZero => .error "TypeError: Provided BC residual is not a Form or Slate Tensor"
    | .expr L =>
      if L.numArguments ≠ 1 then
        .error "ValueError: Provided BC residual is not a linear form"
      else
        match J with
        | some Jf =>
          if Jf.numArguments ≠ 2 then
            .error "ValueError: Provided BC Jacobian is not a bilinear form"
          else
            match Jp with
            | some Jpf =>
              if Jpf.numArguments ≠ 2 then
                .error "ValueError: Provided BC preconditioner is not a bilinear form"
              else
                .ok { base := bse, u := u, Jp_eq_J := jpEqJ, F := L, J := Jf,
                      Jp := Jpf, is_linear := false, bcs := none }
            | none =>
              .ok { base := bse, u := u, Jp_eq_J := jpEqJ, F := L, J := Jf,
                    Jp := Jf, is_linear := false, bcs := none }
        | none =>
          let Jf := UForm.derivative L u
          match Jp with
          | some Jpf =>
            if Jpf.numArguments ≠ 2 then
              .error "ValueError: Provided BC preconditioner is not a bilinear form"
            else
              .ok { base := bse, u := u, Jp_eq_J := jpEqJ, F := L, J := Jf,
                    Jp := Jpf, is_linear := false, bcs := none }
          | none =>
            .ok { base := bse, u := u, Jp_eq_J := jpEqJ, F := L, J := Jf,
                  Jp := Jf, is_linear := false, bcs := none }

/-- Shallow embedding of `EquationBC.__init__`.  `V` models
`eq.lhs.arguments()[0].function_space()`; the base class is again
invoked with the hard-coded `"topological"` so the `method` argument is
discarded.  The linear branch runs exactly when both equation sides are
`ufl.Form` instances; otherwise the nonlinear branch runs. -/
def EquationBC_init (V : FSpace) (lhs rhs : EqSide) (u : Nat)
    (J Jp : Option UForm) (sub_domain : Nat) (method : String) :
    Except String EquationBCState :=
  match BCBase_init V sub_domain "topological" with
  | .error e => .error e
  | .ok bse =>
    if lhs.isUflForm ∧ rhs.isUflForm then
      EquationBC_linear bse Jp.isNone lhs rhs u Jp
    else
      EquationBC_nonlinear bse Jp.isNone lhs rhs u J Jp

/-- The fields of a constructed `EquationBCSplit`. -/
structure EquationBCSplitState where
  base : BCBaseState
  u : Nat
  f : UForm
  bcs : Option (List Nat)

/-- Shallow embedding of `EquationBCSplit.__init__`: the base class is
invoked with the parent's function space and sub-domain and the
hard-coded `"topological"`; the discriminator string picks one of the
parent's three forms; `self.bcs` is set to `None` — it is NOT aliased
from the parent.  The `isinstance(ebc, EquationBC)` guard is a
type-level fact in this embedding. -/
def EquationBCSplit_init (ebc : EquationBCState) (form_str : String) :
    Except String EquationBCSplitState :=
  match BCBase_init ebc.base.function_space ebc.base.sub_domain "topological" with
  | .error e => .error e
  | .ok bse =>
    if form_str = "F" then .ok { base := bse, u := ebc.u, f := ebc.F, bcs := none }
    else if form_str = "J" then .ok { base := bse, u := ebc.u, f := ebc.J, bcs := none }
    else if form_str = "Jp" then .ok { base := bse, u := ebc.u, f := ebc.Jp, bcs := none }
    else .error "TypeError: Undefined form type provided by form_str"

/-- The argument of the module-level `homogenize` function: a single
`DirichletBC` or an arbitrarily nested iterable of them. -/
inductive BCTree (F : Type) where
  | bc (b : DirichletBCState F)
  | iter (l : List (BCTree F))

mutual

/-- Shallow embedding of the module-level `homogenize` function: on an
iterable recurse elementwise (preserving order); on a single BC build
`DirichletBC(bc.function_space(), 0, bc.sub_domain)` with the default
`"topological"` method.  The `Except` carries the constructor's possible
failure; on a BC whose space already passed construction it never
fires. -/
def homogenize {F : Type} [Zero F] : BCTree F → Except String (BCTree F)
  | .bc b =>
    match DirichletBC_full_init F b.base.function_space (.const 0) 0
        b.base.sub_domain "topological" with
    | .error e => .error e
    | .ok b2 => .ok (.bc b2)
  | .iter l =>
    match homogenizeList l with
    | .error e => .error e
    | .ok l2 => .ok (.iter l2)

/-- Elementwise recursion of `homogenize` over an iterable
(`[homogenize(i) for i in bc]`). -/
def homogenizeList {F : Type} [Zero F] : List (BCTree F) → Except String (List (BCTree F))
  | [] => .ok []
  | t :: ts =>
    match homogenize t, homogenizeList ts with
    | .ok t2, .ok ts2 => .ok (t2 :: ts2)
    | .error e, _ => .error e
    | _, .error e => .error e

end

/-- The single-BC action of the module-level `homogenize` on a
constructible BC, as a total function. -/
def homogenizeOne {F : Type} [Zero F] (b : DirichletBCState F) : DirichletBCState F :=
  { base := mkBCBase b.base.function_space b.base.sub_domain "topological",
    val := DirichletBC.init (.const 0) 0 }

/-- A sample constructed `DirichletBC` on a plain (Lagrange, 2-D,
non-extruded, root) space, used to instantiate universally quantified
theorems at concrete inputs. -/
def sampleBC (sd : Nat) (v : Int) : DirichletBCState Int :=
  { base := mkBCBase (FSpace.mk ElemFamily.Lagrange 2 false none none none) sd "topological",
    val := DirichletBC.init (.const v) 0 }

/-- A sample constructed `EquationBC` on a plain space, used to
instantiate universally quantified theorems at concrete inputs. -/
def sampleEquationBC : EquationBCState :=
  { base := mkBCBase (FSpace.mk ElemFamily.Lagrange 2 false none none none) 1 "topological",
    u := 0, Jp_eq_J := true, F := .base 1 0, J := .base 2 1, Jp := .base 2 1,
    is_linear := false, bcs := none }

/-- A sample `EquationBC` to which an external assembler has attached a
nested-BC list (`bcs = [7]`), used to test the (non-)aliasing of
`EquationBCSplit`. -/
def sampleEquationBCWithNested : EquationBCState :=
  { base := mkBCBase (FSpace.mk ElemFamily.Lagrange 2 false none none none) 1 "topological",
    u := 0, Jp_eq_J := true, F := .base 1 0, J := .base 2 1, Jp := .base 2 1,
    is_linear := false, bcs := some [7] }

-- ===================================================================
-- Helper lemmas and theorems
-- ===================================================================

/-- On a space satisfying the construction-time checks,
`BCBase.__init__` with the `"topological"` method succeeds and stores
the given data. -/
theorem BCBase_init_ok (V : FSpace) (sd : Nat) (h : SpaceOK V) :
    BCBase_init V sd "topological" = .ok (mkBCBase V sd "topological") := by
  obtain ⟨h1, h2⟩ := h
  unfold BCBase_init
  rw [if_neg (by simp [h1]), if_neg (by simp), if_neg h2]

/-- The value returned by the `function_arg` getter is the
`_function_arg` field of the state the getter leaves behind. -/
theorem DirichletBC.get_fst_eq {F : Type} (s : DBC F) (c : Nat) :
    (DirichletBC.function_arg_get s c).1 = (DirichletBC.function_arg_get s c).2.function_arg := by
  obtain ⟨ov, es, fa, oa, cz⟩ := s
  cases ov with
  | const v => rfl
  | expr eval =>
    simp only [DirichletBC.function_arg_get]
    split <;> rfl

/-- A getter read preserves the Active-state invariant
`_function_arg = _original_arg`. -/
theorem DirichletBC.get_snd_invariant {F : Type} (s : DBC F) (c : Nat)
    (h : s.currently_zeroed = false → s.function_arg = s.original_arg) :
    (DirichletBC.function_arg_get s c).2.currently_zeroed = false →
      (DirichletBC.function_arg_get s c).2.function_arg
        = (DirichletBC.function_arg_get s c).2.original_arg := by
  obtain ⟨ov, es, fa, oa, cz⟩ := s
  cases ov with
  | const v => exact h
  | expr eval =>
    simp only [DirichletBC.function_arg_get]
    split
    · intro _; rfl
    · exact h

/-- In every state reachable through the public interface, whenever the
BC is not currently zeroed the resolved value `_function_arg` coincides
with the restore point `_original_arg`. -/
theorem DirichletBC.reachable_invariant {F : Type} [Zero F] {s : DBC F}
    (h : DirichletBC.Reachable s) :
    s.currently_zeroed = false → s.function_arg = s.original_arg := by
  induction h with
  | init g gstate =>
    intro _
    cases g with
    | const v => rfl
    | expr eval =>
      simp [DirichletBC.init, DirichletBC.function_arg_set, DirichletBC.function_arg_get]
  | homogenize _ _ =>
    intro hz
    simp [DirichletBC.homogenize, DirichletBC.function_arg_set] at hz
  | restore _ _ => intro _; rfl
  | set_value v vs os _ _ =>
    intro _
    simp only [DirichletBC.set_value]
    exact (DirichletBC.get_fst_eq _ _).symm
  | get c _ ih => exact DirichletBC.get_snd_invariant _ c ih

/-- A path that can be read can also be written. -/
theorem setPath_of_getPath : ∀ (p : List Nat) (r : FFunction) (d f : Nat → Int),
    getPath p r = some d → ∃ r2, setPath p f r = some r2
  | [], .leaf _, _, f, _ => ⟨.leaf f, rfl⟩
  | [], .node _, _, _, h => by simp [getPath] at h
  | _ :: _, .leaf _, _, _, h => by simp [getPath] at h
  | i :: p, .node cs, d, f, h => by
    simp only [getPath] at h
    cases hc : cs[i]? with
    | none => rw [hc] at h; exact absurd h (by simp)
    | some c =>
      rw [hc] at h
      obtain ⟨c2, hc2⟩ := setPath_of_getPath p c d f h
      exact ⟨.node (cs.set i c2), by simp [setPath, hc, hc2]⟩

/-- Writing a path and reading it back yields the written data. -/
theorem getPath_setPath_self : ∀ (p : List Nat) (f : Nat → Int) (r r2 : FFunction),
    setPath p f r = some r2 → getPath p r2 = some f
  | [], f, .leaf _, r2, h => by
    simp only [setPath, Option.some.injEq] at h
    subst h; rfl
  | [], _, .node _, _, h => by simp [setPath] at h
  | _ :: _, _, .leaf _, _, h => by simp [setPath] at h
  | i :: p, f, .node cs, r2, h => by
    simp only [setPath] at h
    cases hc : cs[i]? with
    | none => rw [hc] at h; exact absurd h (by simp)
    | some c =>
      rw [hc] at h
      replace h : Option.map (fun c2 => FFunction.node (cs.set i c2)) (setPath p f c)
          = some r2 := h
      cases hs : setPath p f c with
      | none => rw [hs] at h; exact absurd h (by simp)
      | some c2 =>
        rw [hs] at h
        replace h : FFunction.node (cs.set i c2) = r2 := Option.some.inj h
        subst h
        have hlt : i < cs.length := (List.getElem?_eq_some_iff.mp hc).1
        simp only [getPath, List.getElem?_set_self (by simpa using hlt)]
        exact getPath_setPath_self p f c c2 hs

/-- Writing one path leaves every other path unchanged. -/
theorem getPath_setPath_ne : ∀ (p : List Nat) (f : Nat → Int) (r r2 : FFunction),
    setPath p f r = some r2 → ∀ q, q ≠ p → getPath q r2 = getPath q r
  | [], f, .leaf _, r2, h => by
    simp only [setPath, Option.some.injEq] at h
    subst h
    intro q hq
    cases q with
    | nil => exact absurd rfl hq
    | cons j q => rfl
  | [], _, .node _, _, h => by simp [setPath] at h
  | _ :: _, _, .leaf _, _, h => by simp [setPath] at h
  | i :: p, f, .node cs, r2, h => by
    simp only [setPath] at h
    cases hc : cs[i]? with
    | none => rw [hc] at h; exact absurd h (by simp)
    | some c =>
      rw [hc] at h
      replace h : Option.map (fun c2 => FFunction.node (cs.set i c2)) (setPath p f c)
          = some r2 := h
      cases hs : setPath p f c with
      | none => rw [hs] at h; exact absurd h (by simp)
      | some c2 =>
        rw [hs] at h
        replace h : FFunction.node (cs.set i c2) = r2 := Option.some.inj h
        subst h
        intro q hq
        cases q with
        | nil => rfl
        | cons j q =>
          by_cases hij : j = i
          · subst hij
            have hq2 : q ≠ p := fun he => hq (by rw [he])
            have hlt : j < cs.length := (List.getElem?_eq_some_iff.mp hc).1
            simp only [getPath, List.getElem?_set_self (by simpa using hlt), hc]
            exact getPath_setPath_ne p f c c2 hs q hq2
          · simp only [getPath, List.getElem?_set_ne (fun he => hij he.symm)]

/-- C1: for every `DirichletBC` and every target defined on a compatible
function space (the BC's `sub`-index chain addresses nodal data `rd`
inside the target), `apply(target)` with no current argument overwrites
exactly the `node_set` entries of the addressed data with the BC's
resolved value `g` and leaves every other entry of the target unchanged
(entries of the addressed leaf outside `node_set`, and every other leaf
of the tree); `apply(target, current)` instead writes
`current - resolved_value` into exactly those entries. -/
theorem DirichletBC.apply_spec (p : List Nat) (g : Nat → Int) (ns : List Nat)
    (r : FFunction) (rd : Nat → Int) (hr : getPath p r = some rd) :
    (∃ r2, DirichletBC.apply p g ns r none = some r2
      ∧ getPath p r2 = some (fun i => if i ∈ ns then g i else rd i)
      ∧ ∀ q, q ≠ p → getPath q r2 = getPath q r)
    ∧ ∀ (u : FFunction) (ud : Nat → Int), getPath p u = some ud →
      ∃ r2, DirichletBC.apply p g ns r (some u) = some r2
        ∧ getPath p r2 = some (fun i => if i ∈ ns then ud i - g i else rd i)
        ∧ ∀ q, q ≠ p → getPath q r2 = getPath q r := by
  constructor
  · obtain ⟨r2, h2⟩ :=
      setPath_of_getPath p r rd (fun i => if i ∈ ns then g i else rd i) hr
    refine ⟨r2, ?_, getPath_setPath_self p _ r r2 h2, getPath_setPath_ne p _ r r2 h2⟩
    simp only [DirichletBC.apply, hr]
    exact h2
  · intro u ud hu
    obtain ⟨r2, h2⟩ :=
      setPath_of_getPath p r rd (fun i => if i ∈ ns then ud i - g i else rd i) hr
    refine ⟨r2, ?_, getPath_setPath_self p _ r r2 h2, getPath_setPath_ne p _ r r2 h2⟩
    simp only [DirichletBC.apply, hr, hu]
    exact h2

/-- C1 witness: a two-component mixed function; the BC addresses
component 0 and constrains nodes 1 and 2 to the constant 5. -/
theorem DirichletBC.apply_spec_witness :
    (∃ r2, DirichletBC.apply [0] (fun _ => 5) [1, 2]
        (FFunction.node [FFunction.leaf (fun i : Nat => (i : Int)),
                         FFunction.leaf (fun _ => 3)]) none = some r2
      ∧ getPath [0] r2
          = some (fun i : Nat => if i ∈ [1, 2] then (fun _ : Nat => (5 : Int)) i else ((i : Int)))
      ∧ ∀ q, q ≠ [0] → getPath q r2
          = getPath q (FFunction.node [FFunction.leaf (fun i : Nat => (i : Int)),
                                       FFunction.leaf (fun _ => 3)]))
    ∧ ∀ (u : FFunction) (ud : Nat → Int), getPath [0] u = some ud →
      ∃ r2, DirichletBC.apply [0] (fun _ => 5) [1, 2]
          (FFunction.node [FFunction.leaf (fun i : Nat => (i : Int)),
                           FFunction.leaf (fun _ => 3)]) (some u) = some r2
        ∧ getPath [0] r2
            = some (fun i : Nat => if i ∈ [1, 2] then ud i - (fun _ : Nat => (5 : Int)) i else ((i : Int)))
        ∧ ∀ q, q ≠ [0] → getPath q r2
            = getPath q (FFunction.node [FFunction.leaf (fun i : Nat => (i : Int)),
                                         FFunction.leaf (fun _ => 3)]) :=
  DirichletBC.apply_spec [0] (fun _ => 5) [1, 2]
    (FFunction.node [FFunction.leaf (fun i : Nat => (i : Int)),
                     FFunction.leaf (fun _ => 3)])
    (fun i : Nat => (i : Int)) rfl

/-- C2 counterexample: the claim quantifies over BCs "in any state", but
from an already-homogenized state the `homogenize()`/`restore()` round
trip does not restore the pre-homogenize resolved value: starting from a
BC built with value `5` and then homogenized (resolved value `0`),
another `homogenize()` followed by `restore()` leaves the resolved value
at `5`, not `0`. -/
theorem DirichletBC.homogenize_restore_roundtrip_cex :
    (DirichletBC.restore (DirichletBC.homogenize
        (DirichletBC.homogenize (DirichletBC.init (F := Int) (.const 5) 0)))).function_arg
      ≠ (DirichletBC.homogenize (DirichletBC.init (F := Int) (.const 5) 0)).function_arg := by
  decide

/-- C2 (amended): for every `DirichletBC` in a state reachable through
the public interface, if the BC is Active (not homogenized) then
`homogenize()` immediately followed by `restore()` leaves
`resolved_value` exactly equal to its pre-homogenize value; moreover
(unconditionally, from either state) `homogenize()` does not alter
`original_resolved_value`, and `restore()` sets `resolved_value` to
`original_resolved_value` and returns to the Active state. -/
theorem DirichletBC.homogenize_restore_roundtrip {F : Type} [Zero F] {s : DBC F}
    (h : DirichletBC.Reachable s) :
    (s.currently_zeroed = false →
      (DirichletBC.restore (DirichletBC.homogenize s)).function_arg = s.function_arg)
    ∧ (DirichletBC.homogenize s).original_arg = s.original_arg
    ∧ (DirichletBC.restore s).function_arg = s.original_arg
    ∧ (DirichletBC.restore s).currently_zeroed = false := by
  refine ⟨fun hz => ?_, rfl, rfl, rfl⟩
  simp only [DirichletBC.restore, DirichletBC.homogenize, DirichletBC.function_arg_set]
  exact (DirichletBC.reachable_invariant h hz).symm

/-- C2 witness: the amended round trip at a concrete Active BC with
constant value `5`. -/
theorem DirichletBC.homogenize_restore_roundtrip_witness :
    (DirichletBC.restore (DirichletBC.homogenize
        (DirichletBC.init (F := Int) (.const 5) 0))).function_arg
      = (DirichletBC.init (F := Int) (.const 5) 0).function_arg :=
  (DirichletBC.homogenize_restore_roundtrip
    (DirichletBC.Reachable.init (GValue.const 5) 0)).1 rfl

/-- C3: the code contradicts the claim.  Construct a BC from a mutable
expression that resolves to `7 + 2*state`; let the expression's internal
state advance from `0` to `1` without any intervening read; then call
`set_value` with the constant `5`.  Because `set_value` assigns
`self._original_arg = self.function_arg` through the property getter
while `_original_val` still holds the old expression, the getter
re-resolves the OLD expression (now yielding `9`) and clobbers the just
assigned value: the resolved value ends up `9`, not `5`, and so does the
restore point. -/
theorem DirichletBC.set_value_clobbered_by_stale_expression :
    (DirichletBC.set_value
        (DirichletBC.init (F := Int) (.expr fun st => 7 + 2 * (st : Int)) 0)
        (.const 5) 0 1).function_arg = 9
    ∧ ¬ (DirichletBC.set_value
        (DirichletBC.init (F := Int) (.expr fun st => 7 + 2 * (st : Int)) 0)
        (.const 5) 0 1).function_arg = 5
    ∧ (DirichletBC.restore (DirichletBC.set_value
        (DirichletBC.init (F := Int) (.expr fun st => 7 + 2 * (st : Int)) 0)
        (.const 5) 0 1)).function_arg = 9 := by
  refine ⟨?_, ?_, ?_⟩ <;> decide

/-- C10: reading the `function_arg` property of a `DirichletBC` whose
original value is a mutable expression, after the expression's state
counter has advanced past the last-resolved state: if the BC is not
homogenized, the read returns the freshly re-resolved field, overwrites
both the stored resolved value and the restore point with it (so a
subsequent `restore()` yields the re-resolved value), and records the
new expression state; if the BC is homogenized, the read returns the
stored (zeroed) value and changes nothing. -/
theorem DirichletBC.function_arg_get_spec {F : Type} (eval : Nat → F) (s : DBC F)
    (curState : Nat) (hov : s.original_val = .expr eval)
    (hst : curState ≠ s.expression_state) :
    (s.currently_zeroed = false →
      (DirichletBC.function_arg_get s curState).1 = eval curState
      ∧ (DirichletBC.function_arg_get s curState).2.function_arg = eval curState
      ∧ (DirichletBC.function_arg_get s curState).2.original_arg = eval curState
      ∧ (DirichletBC.function_arg_get s curState).2.expression_state = curState
      ∧ (DirichletBC.restore
          (DirichletBC.function_arg_get s curState).2).function_arg = eval curState)
    ∧ (s.currently_zeroed = true →
      (DirichletBC.function_arg_get s curState) = (s.function_arg, s)) := by
  obtain ⟨ov, es, fa, oa, cz⟩ := s
  simp only at hov hst
  subst hov
  constructor
  · intro hz
    simp only at hz
    subst hz
    simp only [DirichletBC.function_arg_get, DirichletBC.function_arg_set,
      DirichletBC.restore]
    rw [if_pos ⟨by trivial, hst⟩]
    exact ⟨rfl, rfl, rfl, rfl, rfl⟩
  · intro hz
    simp only at hz
    subst hz
    simp only [DirichletBC.function_arg_get]
    rw [if_neg (by simp)]

/-- C10 witness: the getter at a concrete expression-backed BC, once in
the Active state (re-resolution to `2 + 7 = 9`) and once homogenized (no
re-resolution). -/
theorem DirichletBC.function_arg_get_spec_witness :
    (DirichletBC.function_arg_get
        (⟨.expr (fun n => (n : Int) + 7), 0, 7, 7, false⟩ : DBC Int) 2).1 = (2 : Int) + 7
    ∧ (DirichletBC.function_arg_get
        (⟨.expr (fun n => (n : Int) + 7), 0, 0, 7, true⟩ : DBC Int) 2)
      = (0, ⟨.expr (fun n => (n : Int) + 7), 0, 0, 7, true⟩) :=
  ⟨((DirichletBC.function_arg_get_spec (fun n => (n : Int) + 7) _ 2 rfl
      (by decide)).1 rfl).1,
   (DirichletBC.function_arg_get_spec (fun n => (n : Int) + 7) _ 2 rfl
      (by decide)).2 rfl⟩


/-- Entrywise characterisation of Python's `l[::2]`: the `i`-th retained
entry is the `2*i`-th entry of the original list. -/
theorem everySecond_getElem? : ∀ (l : List Nat) (i : Nat),
    (everySecond l)[i]? = l[2 * i]?
  | [], _ => by simp [everySecond]
  | [a], i => by
    cases i with
    | zero => rfl
    | succ j => simp [everySecond, List.getElem?_cons_succ, Nat.mul_succ]
  | a :: b :: rest, i => by
    cases i with
    | zero => simp [everySecond]
    | succ j =>
      have : 2 * (j + 1) = 2 * j + 1 + 1 := by omega
      rw [this]
      simpa [everySecond] using everySecond_getElem? rest j

/-- C9: for a Hermite element on a 1-dimensional mesh, the `nodes`
property retains exactly every second entry of the boundary node
sequence returned by the function space, starting from the first (the
`i`-th retained node is the `2*i`-th boundary node); for every other
element/mesh combination it is the full boundary node sequence. -/
theorem nodesOf_spec (elem : ElemFamily) (tdim : Nat) (bnodes : List Nat) :
    (elem = ElemFamily.Hermite ∧ tdim = 1 →
      nodesOf elem tdim bnodes = everySecond bnodes
      ∧ ∀ i, (nodesOf elem tdim bnodes)[i]? = bnodes[2 * i]?)
    ∧ (¬ (elem = ElemFamily.Hermite ∧ tdim = 1) →
      nodesOf elem tdim bnodes = bnodes) := by
  constructor
  · intro h
    rw [nodesOf, if_pos h]
    exact ⟨rfl, fun i => everySecond_getElem? bnodes i⟩
  · intro h
    rw [nodesOf, if_neg h]

/-- C9 witness: Hermite on a 1-D mesh keeps nodes 10, 12, 14 out of
10..14; Lagrange on a 2-D mesh keeps the full sequence. -/
theorem nodesOf_spec_witness :
    nodesOf ElemFamily.Hermite 1 [10, 11, 12, 13, 14] = everySecond [10, 11, 12, 13, 14]
    ∧ nodesOf ElemFamily.Lagrange 2 [10, 11] = [10, 11] :=
  ⟨((nodesOf_spec ElemFamily.Hermite 1 [10, 11, 12, 13, 14]).1 ⟨rfl, rfl⟩).1,
   (nodesOf_spec ElemFamily.Lagrange 2 [10, 11]).2 (by simp)⟩

/-- The module-level `homogenize` on a single constructible BC. -/
theorem homogenize_bc_ok {F : Type} [Zero F] (b : DirichletBCState F)
    (hb : SpaceOK b.base.function_space) :
    homogenize (BCTree.bc b) = .ok (.bc (homogenizeOne b)) := by
  simp [homogenize, DirichletBC_full_init,
    BCBase_init_ok b.base.function_space b.base.sub_domain hb, homogenizeOne]

/-- The module-level `homogenize` on a flat list of constructible BCs
maps `homogenizeOne` elementwise, preserving length and order. -/
theorem homogenizeList_map {F : Type} [Zero F] : ∀ (bs : List (DirichletBCState F)),
    (∀ b ∈ bs, SpaceOK b.base.function_space) →
    homogenizeList (bs.map .bc) = .ok (bs.map fun b => .bc (homogenizeOne b))
  | [], _ => rfl
  | b :: bs, h => by
    have hb := h b (List.mem_cons_self b bs)
    have hrest := homogenizeList_map bs (fun x hx => h x (List.mem_cons_of_mem b hx))
    simp only [List.map_cons, homogenizeList, homogenize_bc_ok b hb, hrest]

/-- C6 counterexample: the fixed exclusion list in the code names three
element families (Argyris, Morley, Bell), not four as the claim
states. -/
theorem excludedElements_not_four :
    excludedElements.length = 3 ∧ ¬ excludedElements.length = 4 := by decide

/-- C6 (amended): for every function space whose element belongs to the
fixed exclusion list of THREE named element families (Argyris, Morley,
Bell), or is Hermite on a mesh of topological dimension greater than 1,
constructing any boundary condition on that space (base class,
DirichletBC, or EquationBC) fails with the unsupported-element error at
construction time; no boundary-node resolution is involved (the
constructors never consult the space's boundary nodes — node resolution
lives in the separate, lazily evaluated `nodes` attribute). -/
theorem unsupported_element_rejected (V : FSpace) (sd : Nat) (m : String)
    (h : V.elem ∈ excludedElements ∨ (V.elem = ElemFamily.Hermite ∧ V.tdim > 1)) :
    BCBase_init V sd m
      = .error "NotImplementedError: Strong BCs not implemented for element"
    ∧ (∀ (g : GValue Int) (gs : Nat) (m2 : String),
        DirichletBC_full_init Int V g gs sd m2
          = .error "NotImplementedError: Strong BCs not implemented for element")
    ∧ (∀ (lhs rhs : EqSide) (u : Nat) (J Jp : Option UForm) (m3 : String),
        EquationBC_init V lhs rhs u J Jp sd m3
          = .error "NotImplementedError: Strong BCs not implemented for element") := by
  have hz : isZanyElement V.elem V.tdim = true := by
    rcases h with h | ⟨h1, h2⟩ <;> simp [isZanyElement, *]
  have hbase : ∀ m' : String, BCBase_init V sd m'
      = .error "NotImplementedError: Strong BCs not implemented for element" := by
    intro m'
    unfold BCBase_init
    rw [if_pos hz]
  refine ⟨hbase m, fun g gs m2 => ?_, fun lhs rhs u J Jp m3 => ?_⟩
  · simp [DirichletBC_full_init, hbase "topological"]
  · simp [EquationBC_init, hbase "topological"]

/-- C6 witness: a Morley space in 2-D is rejected at construction. -/
theorem unsupported_element_rejected_witness :
    BCBase_init (FSpace.mk ElemFamily.Morley 2 false none none none) 1 "topological"
      = .error "NotImplementedError: Strong BCs not implemented for element" :=
  (unsupported_element_rejected (FSpace.mk ElemFamily.Morley 2 false none none none)
    1 "topological" (Or.inl (by decide))).1

/-- C4: the code contradicts the claim for `DirichletBC` and
`EquationBC`.  The base class does validate `method` and stores it; but
`DirichletBC.__init__` and `EquationBC.__init__` invoke the base class
with the hard-coded string `"topological"`, so constructing a
`DirichletBC` (or `EquationBC`) with an unrecognized method string
`"junk"` succeeds instead of raising, and constructing one with the
recognized string `"geometric"` silently stores `"topological"` rather
than the requested method. -/
theorem method_argument_ignored :
    BCBase_init (FSpace.mk ElemFamily.Lagrange 2 false none none none) 1 "junk"
      = .error "ValueError: Unknown boundary condition method"
    ∧ BCBase_init (FSpace.mk ElemFamily.Lagrange 2 false none none none) 1 "geometric"
      = .ok (mkBCBase (FSpace.mk ElemFamily.Lagrange 2 false none none none) 1 "geometric")
    ∧ (∃ st, DirichletBC_full_init Int (FSpace.mk ElemFamily.Lagrange 2 false none none none)
          (.const 0) 0 1 "junk" = .ok st ∧ st.base.method = "topological")
    ∧ (∃ st, DirichletBC_full_init Int (FSpace.mk ElemFamily.Lagrange 2 false none none none)
          (.const 0) 0 1 "geometric" = .ok st ∧ st.base.method = "topological")
    ∧ (∃ st, EquationBC_init (FSpace.mk ElemFamily.Lagrange 2 false none none none)
          (.expr (.base 1 0)) .intZero 0 none none 1 "junk" = .ok st
          ∧ st.base.method = "topological") := by
  refine ⟨rfl, rfl,
    ⟨⟨mkBCBase (FSpace.mk ElemFamily.Lagrange 2 false none none none) 1 "topological",
      DirichletBC.init (.const 0) 0⟩, rfl, rfl⟩,
    ⟨⟨mkBCBase (FSpace.mk ElemFamily.Lagrange 2 false none none none) 1 "topological",
      DirichletBC.init (.const 0) 0⟩, rfl, rfl⟩,
    ⟨⟨mkBCBase (FSpace.mk ElemFamily.Lagrange 2 false none none none) 1 "topological",
      0, true, .base 1 0, .derivative (.base 1 0) 0, .derivative (.base 1 0) 0,
      false, none⟩, rfl, rfl⟩⟩

/-- C7: the module-level `homogenize` applied to a single constructible
BC returns a single BC on the same function space with the same
`sub_domain` and value zero (both the resolved value and the restore
point are the zero field); applied to a list of N BCs it returns the
list of their homogenized versions, elementwise in the same order
(hence of length N). -/
theorem homogenize_module_spec {F : Type} [Zero F] :
    (∀ b : DirichletBCState F, SpaceOK b.base.function_space →
      homogenize (BCTree.bc b) = .ok (.bc (homogenizeOne b))
      ∧ (homogenizeOne b).base.sub_domain = b.base.sub_domain
      ∧ (homogenizeOne b).base.function_space = b.base.function_space
      ∧ (homogenizeOne b).val.function_arg = 0
      ∧ (homogenizeOne b).val.original_arg = 0)
    ∧ ∀ bs : List (DirichletBCState F),
        (∀ b ∈ bs, SpaceOK b.base.function_space) →
        homogenize (BCTree.iter (bs.map .bc))
          = .ok (.iter (bs.map fun b => .bc (homogenizeOne b))) := by
  constructor
  · intro b hb
    exact ⟨homogenize_bc_ok b hb, rfl, rfl, rfl, rfl⟩
  · intro bs hbs
    simp only [homogenize, homogenizeList_map bs hbs]

/-- C7 witness: homogenizing a two-element list of BCs with values 5 and
7 on sub-domains 1 and 2; also the single-BC facts at the first one. -/
theorem homogenize_module_spec_witness :
    homogenize (BCTree.iter [BCTree.bc (sampleBC 1 5), BCTree.bc (sampleBC 2 7)])
      = .ok (.iter [.bc (homogenizeOne (sampleBC 1 5)), .bc (homogenizeOne (sampleBC 2 7))])
    ∧ (homogenizeOne (sampleBC 1 5)).base.sub_domain = (sampleBC 1 5).base.sub_domain
    ∧ (homogenizeOne (sampleBC 1 5)).val.function_arg = 0 :=
  ⟨homogenize_module_spec.2 [sampleBC 1 5, sampleBC 2 7]
      (by
        intro b hb
        simp only [List.mem_cons, List.not_mem_nil, or_false] at hb
        rcases hb with rfl | rfl <;> decide),
   (homogenize_module_spec.1 (sampleBC 1 5) (by decide)).2.1,
   (homogenize_module_spec.1 (sampleBC 1 5) (by decide)).2.2.2.1⟩

/-- C8: for an `EquationBC` built on a constructible space from a
nonlinear residual equation `F(u) == 0` (lhs a residual with exactly one
free argument, rhs the literal `0`, so the nonlinear branch runs) with
no explicit Jacobian and no explicit preconditioner: construction
succeeds, the residual form is the lhs, the Jacobian form is the
symbolic derivative of the residual with respect to the unknown,
`Jp_eq_J` (uses-default-preconditioner) is true and the preconditioner
form is the Jacobian form itself; and with any non-`ufl.Form` right-hand
side (so the classification is still nonlinear) but rhs not the literal
`0`, construction fails with the RHS-must-be-0 error. -/
theorem EquationBC_nonlinear_defaults (V : FSpace) (hV : SpaceOK V)
    (L : UForm) (h1 : L.numArguments = 1) (u sd : Nat) (m : String) :
    (∃ st, EquationBC_init V (.expr L) .intZero u none none sd m = .ok st
      ∧ st.F = L ∧ st.J = UForm.derivative L u ∧ st.Jp_eq_J = true
      ∧ st.Jp = st.J ∧ st.is_linear = false)
    ∧ ∀ R : UForm, R.isForm = false →
        EquationBC_init V (.expr L) (.expr R) u none none sd m
          = .error "TypeError: RHS of a nonlinear form equation has to be 0" := by
  constructor
  · refine ⟨⟨mkBCBase V sd "topological", u, true, L, .derivative L u, .derivative L u,
      false, none⟩, ?_, rfl, rfl, rfl, rfl, rfl⟩
    simp [EquationBC_init, BCBase_init_ok V sd hV, EquationBC_nonlinear,
      EqSide.isUflForm, h1]
  · intro R hR
    simp [EquationBC_init, BCBase_init_ok V sd hV, EquationBC_nonlinear,
      EqSide.isUflForm, hR]

/-- C8 witness: a one-argument residual form on a plain space, with the
zero rhs (defaulted Jacobian and preconditioner) and with a Slate tensor
rhs (rejected). -/
theorem EquationBC_nonlinear_defaults_witness :
    (∃ st, EquationBC_init (FSpace.mk ElemFamily.Lagrange 2 false none none none)
        (.expr (.base 1 0)) .intZero 0 none none 1 "topological" = .ok st
      ∧ st.F = UForm.base 1 0 ∧ st.J = UForm.derivative (.base 1 0) 0 ∧ st.Jp_eq_J = true
      ∧ st.Jp = st.J ∧ st.is_linear = false)
    ∧ EquationBC_init (FSpace.mk ElemFamily.Lagrange 2 false none none none)
        (.expr (.base 1 0)) (.expr (.tensor 1 5)) 0 none none 1 "topological"
      = .error "TypeError: RHS of a nonlinear form equation has to be 0" :=
  ⟨(EquationBC_nonlinear_defaults (FSpace.mk ElemFamily.Lagrange 2 false none none none)
      (by decide) (.base 1 0) rfl 0 1 "topological").1,
   (EquationBC_nonlinear_defaults (FSpace.mk ElemFamily.Lagrange 2 false none none none)
      (by decide) (.base 1 0) rfl 0 1 "topological").2 (.tensor 1 5) rfl⟩

/-- C5 counterexample: a parent `EquationBC` that has a nested-BC list
attached (`bcs = [7]`); the `EquationBCSplit` constructed from it with
selector `"F"` carries `bcs = None`, not the parent's list — nothing is
shared or aliased. -/
theorem EquationBCSplit_no_alias_cex :
    ∃ st, EquationBCSplit_init sampleEquationBCWithNested "F" = .ok st
      ∧ st.bcs ≠ sampleEquationBCWithNested.bcs :=
  ⟨⟨mkBCBase (FSpace.mk ElemFamily.Lagrange 2 false none none none) 1 "topological",
    0, .base 1 0, none⟩, rfl, by decide⟩

/-- C5 (amended): for every parent `EquationBC` on a constructible space
and selector in F, J, Jp, the split is constructed with the parent's
function space and sub-domain (and the `"topological"` method), the
selected form of the parent, and its nested-BC list initialized to
`None` — NOT aliased from the parent; for any selector outside
F, J, Jp construction fails with the undefined-form-type error. -/
theorem EquationBCSplit_init_spec (ebc : EquationBCState)
    (h : SpaceOK ebc.base.function_space) :
    EquationBCSplit_init ebc "F"
      = .ok { base := mkBCBase ebc.base.function_space ebc.base.sub_domain "topological",
              u := ebc.u, f := ebc.F, bcs := none }
    ∧ EquationBCSplit_init ebc "J"
      = .ok { base := mkBCBase ebc.base.function_space ebc.base.sub_domain "topological",
              u := ebc.u, f := ebc.J, bcs := none }
    ∧ EquationBCSplit_init ebc "Jp"
      = .ok { base := mkBCBase ebc.base.function_space ebc.base.sub_domain "topological",
              u := ebc.u, f := ebc.Jp, bcs := none }
    ∧ ∀ s : String, ¬ (s = "F" ∨ s = "J" ∨ s = "Jp") →
        EquationBCSplit_init ebc s
          = .error "TypeError: Undefined form type provided by form_str" := by
  have hb := BCBase_init_ok ebc.base.function_space ebc.base.sub_domain h
  refine ⟨?_, ?_, ?_, ?_⟩
  · simp [EquationBCSplit_init, hb]
  · simp [EquationBCSplit_init, hb]
  · simp [EquationBCSplit_init, hb]
  · intro s hs
    push_neg at hs
    simp [EquationBCSplit_init, hb, hs.1, hs.2.1, hs.2.2]

/-- C5 witness: splitting a concrete parent with selector "F" and
failing with selector "X". -/
theorem EquationBCSplit_init_spec_witness :
    EquationBCSplit_init sampleEquationBC "F"
      = .ok { base := mkBCBase sampleEquationBC.base.function_space
                sampleEquationBC.base.sub_domain "topological",
              u := sampleEquationBC.u, f := sampleEquationBC.F, bcs := none }
    ∧ EquationBCSplit_init sampleEquationBC "X"
      = .error "TypeError: Undefined form type provided by form_str" :=
  ⟨(EquationBCSplit_init_spec sampleEquationBC (by decide)).1,
   (EquationBCSplit_init_spec sampleEquationBC (by decide)).2.2.2 "X" (by decide)⟩
